import Mathlib

/-!
Shallow embedding of the list state engine in `src/list.go` (package `list`
of srihari93/bubble-list), covering the item store, the filter state
machine, the selection manager and the viewport window.  Items are opaque
(`Item` is a Go interface), so the model is polymorphic in the item type.
Go `int` is modelled as `Int`; Go slice-index panics are modelled by
`Option` results (`none` = panic).
-/

set_option autoImplicit false

namespace BubbleList

variable {α : Type}

/-- Embeds `FilterState` (list.go lines 120-127). -/
inductive FilterState where
  | Unfiltered
  | Filtering
  | FilterApplied
deriving DecidableEq, Repr

/-- Embeds `filteredItem` (list.go lines 56-59): an item together with the
rune indices matched by the filter (the source calls this field `matches`,
a reserved word here, so the name of `Rank.MatchedIndexes` is used). -/
structure FilteredItem (α : Type) where
  item : α
  matchedIndexes : List Nat
deriving DecidableEq, Repr

/-- Embeds `filteredItems.items` (list.go lines 63-69): project the items
out of a filtered-item list. -/
def itemsOf (f : List (FilteredItem α)) : List α :=
  f.map FilteredItem.item

/-- Embeds the state-machine-relevant fields of `Model` (list.go lines
139-203): the master sequence `items`, the ephemeral `filteredItems`, the
filter state, the selected `index` (-1 sentinel), the viewport bounds, and
the filter query text (`FilterInput.Value()` in the source; the rest of the
text-input widget is external rendering state). -/
structure Model (α : Type) where
  items : List α
  filteredItems : List (FilteredItem α)
  filterState : FilterState
  index : Int
  firstItemIndexInView : Int
  lastItemIndexInView : Int
  filterValue : String
deriving DecidableEq, Repr

/-- Embeds `New` (list.go lines 206-251) restricted to the modelled fields:
initial index is 0 when items are non-empty, -1 otherwise; viewport bounds
start at their zero value; no filter is set. -/
def New (items : List α) : Model α :=
  { items := items
    filteredItems := []
    filterState := .Unfiltered
    index := if 0 < items.length then 0 else -1
    firstItemIndexInView := 0
    lastItemIndexInView := 0
    filterValue := "" }

/-- Embeds `Model.AvailableItems` (list.go lines 445-450): the filtered
sequence when a filter is set or being set, the master sequence otherwise. -/
def AvailableItems (m : Model α) : List α :=
  if m.filterState ≠ .Unfiltered then itemsOf m.filteredItems
  else m.items

/-- Length of the available sequence as a Go `int`. -/
def lenAvail (m : Model α) : Int :=
  ((AvailableItems m).length : Int)

/-- Embeds `insertItemIntoSlice` (list.go lines 1196-1210): append when
`index >= len(items)`, otherwise clamp the index to 0 and shift the suffix
right by one (the Go `append`/`copy` idiom is insertion at the clamped
position; the `items == nil` case coincides with the empty list). -/
def insertItemIntoSlice (items : List α) (item : α) (index : Int) : List α :=
  if (items.length : Int) ≤ index then items ++ [item]
  else
    let j := (max 0 index).toNat
    items.take j ++ item :: items.drop j

/-- Embeds `removeItemFromSlice` (list.go lines 1213-1220): no-op for
`index >= len(i)`; for a negative index the expression `i[index:]` panics,
modelled as `none`; otherwise shift the suffix left (erase at `index`). -/
def removeItemFromSlice (i : List α) (index : Int) : Option (List α) :=
  if (i.length : Int) ≤ index then some i
  else if index < 0 then none
  else some (i.eraseIdx index.toNat)

/-- Embeds `removeFilterMatchFromSlice` (list.go lines 1222-1229), with the
same shape (and the same negative-index panic) as `removeItemFromSlice`. -/
def removeFilterMatchFromSlice (i : List (FilteredItem α)) (index : Int) :
    Option (List (FilteredItem α)) :=
  if (i.length : Int) ≤ index then some i
  else if index < 0 then none
  else some (i.eraseIdx index.toNat)

/-- Embeds `Model.Select` (list.go lines 354-372). -/
def Select (m : Model α) (index : Int) : Model α :=
  let size : Int := (AvailableItems m).length
  if size = 0 then { m with index := -1 }
  else if index < 0 then { m with index := 0 }
  else if size - 1 < index then { m with index := size - 1 }
  else { m with index := index }

/-- Embeds `Model.ResetSelected` (list.go lines 375-377). -/
def ResetSelected (m : Model α) : Model α :=
  Select m 0

/-- Embeds `Model.CursorUp` (list.go lines 482-484). -/
def CursorUp (m : Model α) : Model α :=
  Select m (m.index - 1)

/-- Embeds `Model.CursorDown` (list.go lines 487-489). -/
def CursorDown (m : Model α) : Model α :=
  Select m (m.index + 1)

/-- Embeds `Model.SelectedItem` (list.go lines 453-462): `nil` (here
`none`) when the index is negative, the available sequence is empty, or
the index is at least its length; otherwise the available item at the
selected index. -/
def SelectedItem (m : Model α) : Option α :=
  let i := m.index
  let items := AvailableItems m
  if i < 0 ∨ items.length = 0 ∨ (items.length : Int) ≤ i then none
  else items.get? i.toNat

/-- Embeds `Model.resetFiltering` (list.go lines 604-613): back to
`Unfiltered`, clearing the query text (`FilterInput.Reset()`) and the
filtered sequence. -/
def resetFiltering (m : Model α) : Model α :=
  if m.filterState = .Unfiltered then m
  else { m with filterState := .Unfiltered, filterValue := "", filteredItems := [] }

/-- Embeds `Model.InsertItem` (list.go lines 414-424) on the modelled
state: only the master sequence changes synchronously (the re-filter it
requests is an asynchronous command, delivered later as a result message). -/
def InsertItem (m : Model α) (index : Int) (item : α) : Model α :=
  { m with items := insertItemIntoSlice m.items item index }

/-- Embeds `Model.RemoveItem` (list.go lines 429-437): remove from the
master sequence, and when a filter is set also remove position `index`
from the filtered sequence, resetting filtering if it becomes empty.
`none` models the Go panic on a negative index. -/
def RemoveItem (m : Model α) (index : Int) : Option (Model α) :=
  match removeItemFromSlice m.items index with
  | none => none
  | some items' =>
    if m.filterState ≠ .Unfiltered then
      match removeFilterMatchFromSlice m.filteredItems index with
      | none => none
      | some fi =>
        let m' := { m with items := items', filteredItems := fi }
        if fi.length = 0 then some (resetFiltering m') else some m'
    else some { m with items := items' }

/-- Embeds `Model.updateViewportBounds` (list.go lines 671-723).  The
available height and the per-item height come from external rendering
collaborators (lipgloss measurements and the delegate, lines 678-690);
their quotient is passed in as `rawSpace`, to which the `max(1, ...)`
guard of lines 691-694 is applied here. -/
def updateViewportBounds (m : Model α) (rawSpace : Int) : Model α :=
  let index := m.index
  if index < 0 then
    { m with firstItemIndexInView := 0, lastItemIndexInView := 0 }
  else
    let availSpace := max 1 rawSpace
    let requiredSpace : Int := (AvailableItems m).length
    let currentFirst := m.firstItemIndexInView
    let currentLast := min requiredSpace (currentFirst + availSpace) - 1
    if currentFirst ≤ index ∧ index ≤ currentLast then
      { m with lastItemIndexInView := currentLast }
    else if currentLast < index then
      { m with firstItemIndexInView := max 0 (index - availSpace + 1),
               lastItemIndexInView := index }
    else if currentFirst > index then
      { m with firstItemIndexInView := index,
               lastItemIndexInView := index + min requiredSpace availSpace - 1 }
    else m

/-- Embeds the accept arm of `Model.handleFiltering` (list.go lines
852-874), reached while `filterState == Filtering`: bail out on an empty
master sequence; reset filtering when the filtered sequence is empty;
otherwise apply the filter, falling back to a reset when the query text is
empty.  (`hideStatusMessage`, `Blur` and `updateKeybindings` touch only
unmodelled presentation state.) -/
def acceptFilter (m : Model α) : Model α :=
  if m.items.length = 0 then m
  else if (AvailableItems m).length = 0 then resetFiltering m
  else
    let m2 := { m with filterState := FilterState.FilterApplied }
    if m2.filterValue = "" then resetFiltering m2 else m2

/-- The messages of `Model.Update` that drive the modelled state: the
asynchronous ranking result (`FilterMatchesMsg`) and the accept-filter
key event. -/
inductive Msg (α : Type) where
  | filterMatches (l : List (FilteredItem α))
  | acceptWhileFiltering

/-- Embeds the dispatch of `Model.Update` (list.go lines 733-765) on the
modelled messages: a `FilterMatchesMsg` replaces the filtered sequence
unconditionally and returns at once (lines 742-744); a key event reaches
`handleFiltering` only while `filterState == Filtering` (lines 757-762),
and the accept key changes nothing in the browsing handlers otherwise. -/
def Update (m : Model α) : Msg α → Model α
  | .filterMatches l => { m with filteredItems := l }
  | .acceptWhileFiltering =>
    if m.filterState = .Filtering then acceptFilter m else m

/-- The selection invariant claimed for the engine: the selected index
lies in `[-1, len(available)-1]` and is `-1` exactly when the available
sequence is empty. -/
def selInvariant (m : Model α) : Prop :=
  (-1 ≤ m.index ∧ m.index ≤ lenAvail m - 1) ∧
    (m.index = -1 ↔ (AvailableItems m).length = 0)

instance (m : Model α) : Decidable (selInvariant m) := by
  unfold selInvariant
  infer_instance

/-- A model state with three available items, the selection at index 1
(in range) and the previous viewport top at index 2, as left behind by an
earlier scroll; capacity is 3 during the next reconciliation. -/
def mViewport : Model Nat :=
  { items := [0, 1, 2]
    filteredItems := []
    filterState := .Unfiltered
    index := 1
    firstItemIndexInView := 2
    lastItemIndexInView := 2
    filterValue := "" }

/-- A model state captured mid-filtering: one master item, one filtered
match, a non-empty query. -/
def mFiltering : Model Nat :=
  { items := [1]
    filteredItems := [⟨1, []⟩]
    filterState := .Filtering
    index := 0
    firstItemIndexInView := 0
    lastItemIndexInView := 0
    filterValue := "a" }

/-- An unfiltered model state with two items and the second one selected. -/
def mTwo : Model Nat :=
  { items := [1, 2]
    filteredItems := []
    filterState := .Unfiltered
    index := 1
    firstItemIndexInView := 0
    lastItemIndexInView := 1
    filterValue := "" }

lemma resetFiltering_index (m : Model α) :
    (resetFiltering m).index = m.index := by
  unfold resetFiltering
  split <;> rfl

lemma resetFiltering_spec (m : Model α) (h : m.filterState ≠ .Unfiltered) :
    (resetFiltering m).filterState = .Unfiltered
    ∧ (resetFiltering m).filterValue = ""
    ∧ (resetFiltering m).filteredItems = [] := by
  unfold resetFiltering
  rw [if_neg h]
  exact ⟨rfl, rfl, rfl⟩

/-- The Go shift-right insert is insertion at the clamped position, also in
the append branch. -/
lemma insertItemIntoSlice_eq (items : List α) (x : α) (i : Int) :
    insertItemIntoSlice items x i =
      items.take (max 0 i).toNat ++ x :: items.drop (max 0 i).toNat := by
  unfold insertItemIntoSlice
  split
  · rename_i h
    have hj : items.length ≤ (max 0 i).toNat := by omega
    rw [List.take_of_length_le hj, List.drop_of_length_le hj]
  · rfl

lemma insertItemIntoSlice_length (items : List α) (x : α) (i : Int) :
    (insertItemIntoSlice items x i).length = items.length + 1 := by
  rw [insertItemIntoSlice_eq]
  simp only [List.length_append, List.length_take, List.length_cons,
    List.length_drop]
  omega

/-- Splitting a list at a valid index: the prefix of the erasure, the
element there, and the suffix of the erasure reassemble the list. -/
lemma eraseIdx_take_get_drop (l : List α) (n : Nat) (h : n < l.length) :
    (l.eraseIdx n).take n ++ l.get ⟨n, h⟩ :: (l.eraseIdx n).drop n = l := by
  induction l generalizing n with
  | nil => simp at h
  | cons a t ih =>
    cases n with
    | zero => simp [List.eraseIdx]
    | succ n =>
      have h' : n < t.length := by simpa using h
      simpa [List.eraseIdx] using ih n h'

/-- C5: delivering a ranking result (`FilterMatchesMsg`) replaces the
filtered sequence with the delivered list unconditionally — last write
wins — leaving filter state, master sequence, selection and query
untouched, whatever the current state is. -/
theorem filter_matches_last_write_wins (m : Model α) (l : List (FilteredItem α)) :
    (Update m (.filterMatches l)).filteredItems = l
    ∧ (Update m (.filterMatches l)).filterState = m.filterState
    ∧ (Update m (.filterMatches l)).items = m.items
    ∧ (Update m (.filterMatches l)).index = m.index
    ∧ (Update m (.filterMatches l)).filterValue = m.filterValue :=
  ⟨rfl, rfl, rfl, rfl, rfl⟩

/-- C7: the code's `removeItemFromSlice` is a silent no-op for any index
at or beyond the length (including on an empty store), but a negative
index reaches the slice expression `i[index:]` and panics (`none` here),
so `RemoveItem` is not total on all integer indices as claimed. -/
theorem remove_negative_index_panics :
    removeItemFromSlice ([10] : List Nat) (-1) = none
    ∧ removeItemFromSlice ([10] : List Nat) 5 = some [10]
    ∧ removeItemFromSlice ([] : List Nat) 0 = some []
    ∧ RemoveItem (New ([10] : List Nat)) (-1) = none := by
  decide

/-- C1 (counterexample): the initial empty model satisfies the selection
invariant, but inserting an item leaves the selected index at -1 with a
non-empty available sequence, so the "-1 iff empty" half fails after an
`InsertItem`. -/
theorem selection_invariant_not_preserved_cex :
    selInvariant (New ([] : List Nat))
    ∧ ¬ selInvariant (InsertItem (New ([] : List Nat)) 0 7) := by
  decide

/-- C2 (code bug): from a state whose available sequence has 3 items, with
selection 1 in range and previous top-of-view 2 (itself in range), a
reconciliation pass with capacity 3 produces lastItemIndexInView = 3,
violating `last < len(available)` (rendering then slices past the end). -/
theorem viewport_bounds_violation :
    0 ≤ mViewport.firstItemIndexInView
    ∧ mViewport.firstItemIndexInView < lenAvail mViewport
    ∧ 0 ≤ mViewport.index
    ∧ mViewport.index < lenAvail mViewport
    ∧ (updateViewportBounds mViewport 3).firstItemIndexInView = 1
    ∧ (updateViewportBounds mViewport 3).lastItemIndexInView = 3
    ∧ ¬ (updateViewportBounds mViewport 3).lastItemIndexInView
          < lenAvail (updateViewportBounds mViewport 3) := by
  decide

/-- C3 (code bug): in the scroll-up branch (selection 1 strictly above the
previous first 2) the code sets first = selection as specified, but sets
last = selection + min(len(available), capacity) - 1 instead of the
specified selection + min(len(available) - selection, capacity) - 1; at
len = 3, capacity = 3 the two differ (3 versus 2). -/
theorem scroll_up_last_bound_divergence :
    mViewport.index < mViewport.firstItemIndexInView
    ∧ (updateViewportBounds mViewport 3).firstItemIndexInView = mViewport.index
    ∧ (updateViewportBounds mViewport 3).lastItemIndexInView
        = mViewport.index + min (lenAvail mViewport) 3 - 1
    ∧ ¬ (updateViewportBounds mViewport 3).lastItemIndexInView
          = mViewport.index + min (lenAvail mViewport - mViewport.index) 3 - 1 := by
  decide

/-- C6: `Select` sets -1 on an empty available sequence, clamps a negative
argument to 0 and an argument at or beyond the size to size - 1, and
otherwise sets exactly the argument; it changes no other modelled field;
`CursorUp`, `CursorDown` and `ResetSelected` are `Select` of the
current index minus one, plus one, and of 0. -/
theorem select_clamping (m : Model α) (idx : Int) :
    (Select m idx).index =
      (if lenAvail m = 0 then -1
       else if idx < 0 then 0
       else if lenAvail m ≤ idx then lenAvail m - 1
       else idx)
    ∧ (Select m idx).items = m.items
    ∧ (Select m idx).filteredItems = m.filteredItems
    ∧ (Select m idx).filterState = m.filterState
    ∧ (Select m idx).filterValue = m.filterValue
    ∧ CursorUp m = Select m (m.index - 1)
    ∧ CursorDown m = Select m (m.index + 1)
    ∧ ResetSelected m = Select m 0 := by
  refine ⟨?_, ?_, ?_, ?_, ?_, rfl, rfl, rfl⟩ <;>
    (simp only [Select, lenAvail]
     split_ifs <;> first | rfl | (exfalso; omega))

/-- C10: `SelectedItem` returns `none` rather than failing whenever the
selected index is negative, the available sequence is empty, or the index
is at or beyond its length (drifted indices included); otherwise it
returns the available item at the selected index. -/
theorem selected_item_safe (m : Model α) :
    ((m.index < 0 ∨ (AvailableItems m).length = 0 ∨ lenAvail m ≤ m.index) →
        SelectedItem m = none)
    ∧ ∀ (h : m.index.toNat < (AvailableItems m).length), 0 ≤ m.index →
        SelectedItem m = some ((AvailableItems m).get ⟨m.index.toNat, h⟩) := by
  constructor
  · intro h
    unfold lenAvail at h
    unfold SelectedItem
    dsimp only
    rw [if_pos h]
  · intro h h0
    unfold SelectedItem
    dsimp only
    have hne : ¬(m.index < 0 ∨ (AvailableItems m).length = 0
        ∨ ((AvailableItems m).length : Int) ≤ m.index) := by
      push_neg
      refine ⟨by omega, by omega, by omega⟩
    rw [if_neg hne, List.get?_eq_get h]

/-- C10 witness: on a two-item unfiltered model with the second item
selected, `SelectedItem` returns that item. -/
theorem selected_item_safe_witness : SelectedItem mTwo = some 2 :=
  ((selected_item_safe mTwo).2 (by decide) (by decide)).trans (by decide)

/-- C4: an accept request while `Filtering` leaves the model unchanged
when the master sequence is empty; falls back to `Unfiltered` (query and
filtered sequence cleared) when the filtered sequence is empty; also ends
in `Unfiltered` when the query text is empty; and otherwise moves to
`FilterApplied`, keeping the filtered sequence and the query. -/
theorem accept_filter_transitions (m : Model α) (hf : m.filterState = .Filtering) :
    (m.items = [] → Update m .acceptWhileFiltering = m)
    ∧ (m.items ≠ [] → m.filteredItems = [] →
        (Update m .acceptWhileFiltering).filterState = .Unfiltered
        ∧ (Update m .acceptWhileFiltering).filterValue = ""
        ∧ (Update m .acceptWhileFiltering).filteredItems = [])
    ∧ (m.items ≠ [] → m.filteredItems ≠ [] → m.filterValue = "" →
        (Update m .acceptWhileFiltering).filterState = .Unfiltered
        ∧ (Update m .acceptWhileFiltering).filterValue = ""
        ∧ (Update m .acceptWhileFiltering).filteredItems = [])
    ∧ (m.items ≠ [] → m.filteredItems ≠ [] → m.filterValue ≠ "" →
        (Update m .acceptWhileFiltering).filterState = .FilterApplied
        ∧ (Update m .acceptWhileFiltering).filteredItems = m.filteredItems
        ∧ (Update m .acceptWhileFiltering).filterValue = m.filterValue
        ∧ (Update m .acceptWhileFiltering).items = m.items) := by
  have hU : Update m .acceptWhileFiltering = acceptFilter m := by
    unfold Update
    rw [if_pos hf]
  have hav : AvailableItems m = itemsOf m.filteredItems := by
    unfold AvailableItems
    rw [if_pos (by rw [hf]; exact fun hcon => FilterState.noConfusion hcon)]
  have hfu : m.filterState ≠ .Unfiltered := by
    rw [hf]
    exact fun hcon => FilterState.noConfusion hcon
  rw [hU]
  unfold acceptFilter
  refine ⟨?_, ?_, ?_, ?_⟩
  · intro h
    rw [if_pos (by simp [h])]
  · intro h1 h2
    rw [if_neg (by simpa [List.length_eq_zero] using h1),
      if_pos (by simp [hav, itemsOf, h2])]
    exact resetFiltering_spec m hfu
  · intro h1 h2 h3
    rw [if_neg (by simpa [List.length_eq_zero] using h1),
      if_neg (by simp [hav, itemsOf, List.length_eq_zero]; exact h2)]
    dsimp only
    rw [if_pos h3]
    exact resetFiltering_spec _ (fun hcon => FilterState.noConfusion hcon)
  · intro h1 h2 h3
    rw [if_neg (by simpa [List.length_eq_zero] using h1),
      if_neg (by simp [hav, itemsOf, List.length_eq_zero]; exact h2)]
    dsimp only
    rw [if_neg h3]
    exact ⟨rfl, rfl, rfl, rfl⟩

/-- C4 witness: accepting on a Filtering model with one master item, one
filtered match and a non-empty query yields `FilterApplied` with the
filtered sequence kept. -/
theorem accept_filter_transitions_witness :
    (Update mFiltering Msg.acceptWhileFiltering).filterState = .FilterApplied
    ∧ (Update mFiltering Msg.acceptWhileFiltering).filteredItems
        = mFiltering.filteredItems := by
  have h := (accept_filter_transitions mFiltering rfl).2.2.2
    (by decide) (by decide) (by decide)
  exact ⟨h.1, h.2.1⟩

/-- C1 (amended): neither `InsertItem` nor a successful `RemoveItem` ever
modifies the selected index, and `InsertItem` preserves the range part
`-1 ≤ index ≤ len(available) - 1` of the invariant (the "-1 iff empty"
part is not restored, per the counterexample). -/
theorem insert_remove_index_behavior (m m' : Model α) (i j : Int) (x : α) :
    (InsertItem m i x).index = m.index
    ∧ (RemoveItem m j = some m' → m'.index = m.index)
    ∧ (-1 ≤ m.index → m.index ≤ lenAvail m - 1 →
        -1 ≤ (InsertItem m i x).index
        ∧ (InsertItem m i x).index ≤ lenAvail (InsertItem m i x) - 1) := by
  refine ⟨rfl, ?_, ?_⟩
  · intro h
    unfold RemoveItem at h
    split at h
    · exact absurd h (by simp)
    · split at h
      · split at h
        · exact absurd h (by simp)
        · split at h
          · rw [Option.some.injEq] at h
            subst h
            rw [resetFiltering_index]
          · rw [Option.some.injEq] at h
            subst h
            rfl
      · rw [Option.some.injEq] at h
        subst h
        rfl
  · intro h1 h2
    refine ⟨h1, ?_⟩
    show m.index ≤ _
    simp only [lenAvail, AvailableItems, InsertItem] at h2 ⊢
    by_cases hfs : m.filterState = FilterState.Unfiltered
    · simp only [hfs, ne_eq, not_true_eq_false, if_false] at h2 ⊢
      rw [insertItemIntoSlice_length]
      push_cast
      omega
    · simp only [ne_eq, hfs, not_false_eq_true, if_true] at h2 ⊢
      exact h2

/-- C1 witness: on the two-item model, inserting keeps index 1, a
successful removal keeps index 1, and the insert preserves the range part
of the invariant. -/
theorem insert_remove_index_behavior_witness :
    (InsertItem mTwo 0 9).index = mTwo.index
    ∧ ({ mTwo with items := [2] } : Model Nat).index = mTwo.index
    ∧ (-1 ≤ (InsertItem mTwo 0 9).index
        ∧ (InsertItem mTwo 0 9).index ≤ lenAvail (InsertItem mTwo 0 9) - 1) := by
  have h := insert_remove_index_behavior mTwo { mTwo with items := [2] } 0 0 9
  exact ⟨h.1, h.2.1 (by decide), h.2.2 (by decide) (by decide)⟩

/-- C8: `insertItemIntoSlice` always succeeds and grows the sequence by
one; a negative index behaves as index 0, an index at or beyond the length
appends, and in every case the item lands at the position given by
clamping the index into `[0, length]` (so index 10 into a 3-item store
places the item at position 3). -/
theorem insert_always_succeeds_clamps (items : List α) (x : α) (i : Int) :
    (insertItemIntoSlice items x i).length = items.length + 1
    ∧ (i < 0 → insertItemIntoSlice items x i = insertItemIntoSlice items x 0)
    ∧ ((items.length : Int) ≤ i → insertItemIntoSlice items x i = items ++ [x])
    ∧ (insertItemIntoSlice items x i).get?
        ((max 0 (min i (items.length : Int))).toNat) = some x := by
  refine ⟨insertItemIntoSlice_length items x i, ?_, ?_, ?_⟩
  · intro h
    rw [insertItemIntoSlice_eq, insertItemIntoSlice_eq]
    have hm : max 0 i = max 0 (0 : Int) := by omega
    rw [hm]
  · intro h
    unfold insertItemIntoSlice
    rw [if_pos h]
  · rw [insertItemIntoSlice_eq]
    have h1 : (max 0 (min i (items.length : Int))).toNat
        = (items.take (max 0 i).toNat).length := by
      rw [List.length_take]
      omega
    rw [h1, List.get?_append_right (le_refl _)]
    simp

/-- C8 witness: inserting at index 10 into a 3-item store appends at the
end, and a negative index behaves as index 0. -/
theorem insert_always_succeeds_clamps_witness :
    insertItemIntoSlice ([0, 1, 2] : List Nat) 9 10 = [0, 1, 2] ++ [9]
    ∧ insertItemIntoSlice ([0, 1, 2] : List Nat) 9 (-4)
        = insertItemIntoSlice ([0, 1, 2] : List Nat) 9 0 := by
  have h := insert_always_succeeds_clamps ([0, 1, 2] : List Nat) 9 10
  have h2 := insert_always_succeeds_clamps ([0, 1, 2] : List Nat) 9 (-4)
  exact ⟨h.2.2.1 (by decide), h2.2.1 (by decide)⟩

/-- C9 (counterexample): at the out-of-range index -1 on a one-item store,
the removal is not a no-op as the claim states: it panics (the `i[index:]`
slice expression), modelled as `none`. -/
theorem remove_insert_roundtrip_cex :
    ¬ removeItemFromSlice ([5] : List Nat) (-1) = some [5] := by
  decide

/-- C9 (amended): removing at a valid index and re-inserting the removed
item at the same index restores the original contents; at an index at or
beyond the length the removal is a no-op and the round trip fails (the
insert still grows the sequence); at a negative index the removal panics
instead of being a no-op. -/
theorem remove_insert_roundtrip (items : List α) (x : α) (i : Int) :
    (∀ (h : i.toNat < items.length), 0 ≤ i →
        removeItemFromSlice items i = some (items.eraseIdx i.toNat)
        ∧ insertItemIntoSlice (items.eraseIdx i.toNat)
            (items.get ⟨i.toNat, h⟩) i = items)
    ∧ ((items.length : Int) ≤ i →
        removeItemFromSlice items i = some items
        ∧ insertItemIntoSlice items x i ≠ items)
    ∧ (i < 0 → removeItemFromSlice items i = none) := by
  refine ⟨?_, ?_, ?_⟩
  · intro h h0
    constructor
    · unfold removeItemFromSlice
      rw [if_neg (by omega), if_neg (by omega)]
    · rw [insertItemIntoSlice_eq]
      have hmax : (max 0 i).toNat = i.toNat := by omega
      rw [hmax]
      exact eraseIdx_take_get_drop items i.toNat h
  · intro h
    refine ⟨?_, ?_⟩
    · unfold removeItemFromSlice
      rw [if_pos h]
    · intro heq
      have hlen := insertItemIntoSlice_length items x i
      rw [heq] at hlen
      omega
  · intro h
    unfold removeItemFromSlice
    rw [if_neg (by omega), if_pos h]

/-- C9 witness: removing index 1 from a three-item store and re-inserting
the removed item there restores the store. -/
theorem remove_insert_roundtrip_witness :
    removeItemFromSlice ([4, 5, 6] : List Nat) 1
        = some (([4, 5, 6] : List Nat).eraseIdx (1 : Int).toNat)
    ∧ insertItemIntoSlice (([4, 5, 6] : List Nat).eraseIdx (1 : Int).toNat)
        (([4, 5, 6] : List Nat).get ⟨(1 : Int).toNat, by decide⟩) 1
        = [4, 5, 6] :=
  (remove_insert_roundtrip ([4, 5, 6] : List Nat) 0 1).1 (by decide) (by decide)

end BubbleList
